import Mathlib

/-!
# Verification of the notes-app core state logic

Shallow embedding of the `<script setup>` logic of `src/App.vue`:
the note collection, the editor session, search filtering, deletion,
the localStorage load, and the inline-format helper.

Modelling conventions:
* JavaScript millisecond timestamps (`Date.now()`, `new Date().toISOString()`)
  are modelled as a single `Nat` parameter `now` passed to each operation;
  the ISO string is an injective image of the instant, so both `id` and the
  `createdAt`/`updatedAt` fields carry the `Nat` value.
* JavaScript string primitives (`trim`, `toLowerCase`, `includes`,
  `substring`) are re-defined here over `List Char` so that every operation
  is a computable structural recursion (ASCII case folding, as in the
  inputs the program manipulates).
* `JSON.parse` is a platform builtin, not repository code; it is abstracted
  as a parameter `parse : String → Option (List Note)` where `none` stands
  for a thrown `SyntaxError`.
-/

namespace NotesApp

/-- One character of ASCII case folding, as `toLowerCase` acts on the
app's strings. -/
def jsLowerChar (c : Char) : Char :=
  if 'A' ≤ c ∧ c ≤ 'Z' then Char.ofNat (c.toNat + 32) else c

/-- JavaScript `s.toLowerCase()`. -/
def jsToLower (s : String) : String :=
  String.mk (s.toList.map jsLowerChar)

/-- JavaScript whitespace for `trim` (the characters the app can receive
in a title field). -/
def jsIsWhite (c : Char) : Bool :=
  c = ' ' || c = '\t' || c = '\n' || c = '\r'

/-- JavaScript `s.trim()`. -/
def jsTrim (s : String) : String :=
  String.mk (((s.toList.dropWhile jsIsWhite).reverse.dropWhile jsIsWhite).reverse)

/-- `leads pre l` iff `pre` starts `l` (character lists). -/
def leads : List Char → List Char → Bool
  | [], _ => true
  | _ :: _, [] => false
  | a :: as, b :: bs => a = b && leads as bs

/-- `hasSub sub l` iff `sub` occurs contiguously inside `l`. -/
def hasSub (sub : List Char) : List Char → Bool
  | [] => leads sub []
  | l@(_ :: t) => leads sub l || hasSub sub t

/-- JavaScript `s.includes(sub)`. -/
def strIncludes (s sub : String) : Bool :=
  hasSub sub.toList s.toList

/-- JavaScript `s.substring(a, b)`: clamp both indices to the length and
swap them when out of order, then take the half-open range. -/
def jsSubstring (s : String) (a b : Nat) : String :=
  let n := s.toList.length
  let lo := min (min a n) (min b n)
  let hi := max (min a n) (min b n)
  String.mk ((s.toList.take hi).drop lo)

/-- JavaScript `s.substring(a)` (one-argument form). -/
def jsSubstringFrom (s : String) (a : Nat) : String :=
  String.mk (s.toList.drop a)

/-- A persisted note: `id` from `Date.now()`, title/content as typed,
creation and update instants. -/
structure Note where
  id : Nat
  title : String
  content : String
  createdAt : Nat
  updatedAt : Nat
deriving DecidableEq, Repr

/-- The reactive state of `App.vue` that the claims concern: the note
collection, the editor session (`currentNote` holds the id of the note
being edited, `none` in create mode), and the draft fields. -/
structure AppState where
  notes : List Note
  currentNote : Option Nat
  showEditor : Bool
  editorTitle : String
  editorContent : String
deriving DecidableEq, Repr

/-- The state before `onMounted` runs: empty collection, editor closed. -/
def initialState : AppState :=
  { notes := [], currentNote := none, showEditor := false,
    editorTitle := "", editorContent := "" }

/-- `createNewNote`: open the editor on an empty draft in create mode. -/
def createNewNote (st : AppState) : AppState :=
  { st with editorTitle := "", editorContent := "", currentNote := none
            showEditor := true }

/-- `editNote(note)`: open the editor on an existing note's fields. -/
def editNote (st : AppState) (n : Note) : AppState :=
  { st with currentNote := some n.id, editorTitle := n.title
            editorContent := n.content, showEditor := true }

/-- `closeEditor`: discard the whole editor session. -/
def closeEditor (st : AppState) : AppState :=
  { st with showEditor := false, currentNote := none, editorTitle := ""
            editorContent := "" }

/-- The user-visible failure of `saveNote` (the `alert` on an empty
trimmed title). -/
inductive SaveError where
  | validationError
deriving DecidableEq, Repr

/-- `saveNote` at instant `now`: reject an empty trimmed title without
touching any state; otherwise update the edited note in place (update
mode) or prepend a fresh note with `id = createdAt = updatedAt = now`
(create mode), then close the editor. -/
def saveNote (st : AppState) (now : Nat) : AppState × Option SaveError :=
  if jsTrim st.editorTitle = "" then
    (st, some SaveError.validationError)
  else
    match st.currentNote with
    | some tid =>
        let notes' := st.notes.map (fun n =>
          if n.id = tid then
            { n with title := st.editorTitle, content := st.editorContent
                     updatedAt := now }
          else n)
        (closeEditor { st with notes := notes' }, none)
    | none =>
        let newNote : Note :=
          { id := now, title := st.editorTitle, content := st.editorContent,
            createdAt := now, updatedAt := now }
        (closeEditor { st with notes := newNote :: st.notes }, none)

/-- `deleteNote(noteId)` (the confirmed branch): drop every note with the
id, and close the editor when the open note is the one deleted. -/
def deleteNote (st : AppState) (noteId : Nat) : AppState :=
  let st' := { st with notes := st.notes.filter (fun n => n.id ≠ noteId) }
  if st.currentNote = some noteId then closeEditor st' else st'

/-- The `filteredNotes` computed property: the full collection on the
empty query, otherwise the notes whose lowercased title or content
contains the lowercased query. -/
def filteredNotes (notes : List Note) (searchQuery : String) : List Note :=
  if searchQuery = "" then notes
  else
    let query := jsToLower searchQuery
    notes.filter (fun note =>
      strIncludes (jsToLower note.title) query ||
      strIncludes (jsToLower note.content) query)

/-- The spec's matching predicate: title or content contains the query as
a case-insensitive substring. -/
def specMatches (q : String) (n : Note) : Bool :=
  strIncludes (jsToLower n.title) (jsToLower q) ||
  strIncludes (jsToLower n.content) (jsToLower q)

/-- Outcome of the `onMounted` load: either the collection the store
starts with, or an uncaught `JSON.parse` exception. -/
inductive LoadResult where
  | loaded (notes : List Note)
  | parseFailure
deriving DecidableEq, Repr

/-- The `onMounted` load: `localStorage.getItem('notes')` is `stored`;
a `null` or empty (falsy) result leaves the collection empty, otherwise
`JSON.parse` runs with no surrounding try/catch, so a parse failure
escapes the hook. -/
def loadNotes (stored : Option String) (parse : String → Option (List Note)) :
    LoadResult :=
  match stored with
  | none => LoadResult.loaded []
  | some s =>
      if s = "" then LoadResult.loaded []
      else
        match parse s with
        | some ns => LoadResult.loaded ns
        | none => LoadResult.parseFailure

/-- `applyFormat(format)` reduced to its pure core: the draft content and
the selection offsets in, the new content out. An unknown format kind
replaces the selection with the empty string, as the `switch` leaves
`formattedText` at `''`. -/
def applyFormat (format : String) (start stop : Nat) (content : String) :
    String :=
  let selectedText := jsSubstring content start stop
  let formattedText :=
    if format = "bold" then "**" ++ selectedText ++ "**"
    else if format = "italic" then "*" ++ selectedText ++ "*"
    else if format = "heading" then "# " ++ selectedText
    else if format = "bullet" then "• " ++ selectedText
    else ""
  jsSubstring content 0 start ++ formattedText ++ jsSubstringFrom content stop

/-- One step of the create-only workflow: open the editor in create mode,
type a title and content, save at an instant. -/
structure CreateOp where
  title : String
  content : String
  time : Nat
deriving DecidableEq, Repr

/-- Run a sequence of create operations through the editor. -/
def runCreates : AppState → List CreateOp → AppState
  | st, [] => st
  | st, op :: rest =>
      let st1 := createNewNote st
      let st2 := { st1 with editorTitle := op.title
                            editorContent := op.content }
      runCreates (saveNote st2 op.time).1 rest

/-- C1: for every state and every save instant, when the draft title is
empty after trimming — in create mode (`currentNote = none`) just as in
update mode — `saveNote` signals the validation error and returns the
state completely unchanged: no note added, no note's title, content or
`updatedAt` modified. -/
theorem saveNote_emptyTitle_rejects (st : AppState) (now : Nat)
    (h : jsTrim st.editorTitle = "") :
    saveNote st now = (st, some SaveError.validationError) := by
  simp [saveNote, h]

/-- Witness for C1: a concrete state in update mode with a
whitespace-only draft title is returned untouched together with the
validation error. -/
theorem saveNote_emptyTitle_rejects_witness :
    saveNote
      { notes := [⟨1, "T", "c", 0, 0⟩], currentNote := some 1
        showEditor := true, editorTitle := "  ", editorContent := "x" } 9 =
    ({ notes := [⟨1, "T", "c", 0, 0⟩], currentNote := some 1
       showEditor := true, editorTitle := "  ", editorContent := "x" },
     some SaveError.validationError) :=
  saveNote_emptyTitle_rejects _ 9 (by decide)

/-- C2: filtering on the empty query returns the collection itself;
filtering on a non-empty query returns exactly the notes whose title or
content contains the query as a case-insensitive substring, as an
order-preserving sublist of the collection. -/
theorem filteredNotes_spec (notes : List Note) (q : String) :
    (q = "" → filteredNotes notes q = notes) ∧
    (q ≠ "" →
      filteredNotes notes q = notes.filter (specMatches q) ∧
      List.Sublist (filteredNotes notes q) notes ∧
      ∀ n, n ∈ filteredNotes notes q ↔ n ∈ notes ∧ specMatches q n = true) := by
  constructor
  · intro h
    simp [filteredNotes, h]
  · intro h
    have he : filteredNotes notes q = notes.filter (specMatches q) := by
      unfold filteredNotes
      rw [if_neg h]
      rfl
    refine ⟨he, ?_, ?_⟩
    · rw [he]
      exact List.filter_sublist notes
    · intro n
      rw [he]
      simp [List.mem_filter]

/-- Witness for C2: the scenario of the spec — searching "EGGS" finds
the note whose content holds "eggs" and drops the other. -/
theorem filteredNotes_spec_witness :
    filteredNotes
      [⟨1, "Groceries", "milk eggs bread", 0, 0⟩, ⟨2, "Work", "tasks", 0, 0⟩]
      "EGGS" = [⟨1, "Groceries", "milk eggs bread", 0, 0⟩] :=
  (((filteredNotes_spec
      [⟨1, "Groceries", "milk eggs bread", 0, 0⟩, ⟨2, "Work", "tasks", 0, 0⟩]
      "EGGS").2 (by decide)).1).trans (by decide)

/-- The notes left by `deleteNote` are the filter of the old collection,
whatever the editor session was doing. -/
theorem deleteNote_notes (st : AppState) (nid : Nat) :
    (deleteNote st nid).notes = st.notes.filter (fun n => n.id ≠ nid) := by
  by_cases h : st.currentNote = some nid <;> simp [deleteNote, h, closeEditor]

/-- C6: `deleteNote` keeps exactly the notes with a different id (so it
removes the note when present and is an error-free no-op on the
collection when absent), the collection never contains the deleted id
afterwards, and a second delete of the same id changes nothing. -/
theorem deleteNote_spec (st : AppState) (nid : Nat) :
    (∀ n, n ∈ (deleteNote st nid).notes ↔ n ∈ st.notes ∧ n.id ≠ nid) ∧
    (deleteNote (deleteNote st nid) nid).notes = (deleteNote st nid).notes ∧
    (nid ∉ st.notes.map Note.id → (deleteNote st nid).notes = st.notes) := by
  refine ⟨?_, ?_, ?_⟩
  · intro n
    rw [deleteNote_notes]
    simp [List.mem_filter]
  · rw [deleteNote_notes, deleteNote_notes, List.filter_eq_self]
    intro a ha
    exact (List.mem_filter.mp ha).2
  · intro hmem
    rw [deleteNote_notes, List.filter_eq_self]
    intro a ha
    have hne : a.id ≠ nid := fun he => hmem (he ▸ List.mem_map_of_mem Note.id ha)
    simpa using hne

/-- Witness for C6: deleting an id that is not in the collection leaves
the collection as it was. -/
theorem deleteNote_spec_witness :
    (deleteNote
      { notes := [⟨1, "A", "", 1, 1⟩], currentNote := none
        showEditor := false, editorTitle := "", editorContent := "" }
      2).notes = [⟨1, "A", "", 1, 1⟩] :=
  (deleteNote_spec _ 2).2.2 (by decide)

/-- C7: deleting the note the editor session is open on closes the
session: the editor is hidden and every draft field (`currentNote`,
`editorTitle`, `editorContent`) is discarded. -/
theorem deleteNote_closes_editor (st : AppState) (nid : Nat)
    (_hopen : st.showEditor = true) (hc : st.currentNote = some nid) :
    (deleteNote st nid).showEditor = false ∧
    (deleteNote st nid).currentNote = none ∧
    (deleteNote st nid).editorTitle = "" ∧
    (deleteNote st nid).editorContent = "" := by
  simp [deleteNote, hc, closeEditor]

/-- Witness for C7: deleting the open note of a concrete editing state
closes and clears the editor. -/
theorem deleteNote_closes_editor_witness :
    (deleteNote
      { notes := [⟨1, "A", "body", 1, 1⟩], currentNote := some 1
        showEditor := true, editorTitle := "A", editorContent := "body" }
      1).showEditor = false ∧
    (deleteNote
      { notes := [⟨1, "A", "body", 1, 1⟩], currentNote := some 1
        showEditor := true, editorTitle := "A", editorContent := "body" }
      1).currentNote = none :=
  ⟨(deleteNote_closes_editor _ 1 rfl rfl).1,
   (deleteNote_closes_editor _ 1 rfl rfl).2.1⟩

/-- Counterexample to C3 as stated: the id of a created note is
`Date.now()`, so when the collection already holds a note whose id equals
the save instant (two saves in the same millisecond), the new note's id
is not unique — the collection ends with ids `[5, 5]`. -/
theorem saveNote_create_fresh_counterexample :
    ((saveNote
        { notes := [⟨5, "A", "", 5, 5⟩], currentNote := none
          showEditor := true, editorTitle := "B", editorContent := "" }
        5).1.notes.map Note.id) = [5, 5] ∧
    ¬ ((saveNote
        { notes := [⟨5, "A", "", 5, 5⟩], currentNote := none
          showEditor := true, editorTitle := "B", editorContent := "" }
        5).1.notes.map Note.id).Nodup := by
  decide

/-- C3 (amended): provided the save instant is not already the id of a
note in the collection, a save in create mode with a non-empty trimmed
title prepends a note with `id = createdAt = updatedAt = now` carrying
the draft fields, its id distinct from every pre-existing note's id, the
pre-existing notes unchanged behind it, and no error. -/
theorem saveNote_create_spec (st : AppState) (now : Nat)
    (ht : jsTrim st.editorTitle ≠ "") (hc : st.currentNote = none)
    (hfresh : now ∉ st.notes.map Note.id) :
    (saveNote st now).1.notes =
      { id := now, title := st.editorTitle, content := st.editorContent,
        createdAt := now, updatedAt := now } :: st.notes ∧
    (∀ n ∈ st.notes, n.id ≠ now) ∧
    (saveNote st now).2 = none := by
  refine ⟨?_, ?_, ?_⟩
  · simp [saveNote, ht, hc, closeEditor]
  · intro n hn he
    exact hfresh (he ▸ List.mem_map_of_mem Note.id hn)
  · simp [saveNote, ht, hc]

/-- Witness for C3 (amended): saving the draft "B" at instant 7 over a
collection holding one note of id 1 prepends the note `⟨7, "B", "c", 7, 7⟩`. -/
theorem saveNote_create_spec_witness :
    (saveNote
      { notes := [⟨1, "A", "", 1, 1⟩], currentNote := none
        showEditor := true, editorTitle := "B", editorContent := "c" }
      7).1.notes = [⟨7, "B", "c", 7, 7⟩, ⟨1, "A", "", 1, 1⟩] :=
  (saveNote_create_spec
    { notes := [⟨1, "A", "", 1, 1⟩], currentNote := none
      showEditor := true, editorTitle := "B", editorContent := "c" }
    7 (by decide) rfl (by decide)).1

/-- Running a sequence of non-empty-titled creates stacks the save
instants as the ids, newest first, in front of whatever was there. -/
theorem runCreates_ids (ops : List CreateOp) :
    ∀ st : AppState, (∀ op ∈ ops, jsTrim op.title ≠ "") →
      (runCreates st ops).notes.map Note.id =
        (ops.map CreateOp.time).reverse ++ st.notes.map Note.id := by
  induction ops with
  | nil =>
      intro st _
      simp [runCreates]
  | cons op rest ih =>
      intro st h
      have hop : jsTrim op.title ≠ "" := h op (List.mem_cons_self op rest)
      have hrest : ∀ o ∈ rest, jsTrim o.title ≠ "" :=
        fun o ho => h o (List.mem_cons_of_mem op ho)
      simp only [runCreates]
      rw [ih _ hrest]
      simp [saveNote, createNewNote, closeEditor, hop, List.append_assoc]

/-- Counterexample to C4 as stated: two creates in the same millisecond
(`Date.now()` returning 5 twice) leave the collection with the duplicate
ids `[5, 5]`. -/
theorem runCreates_duplicate_id_counterexample :
    ((runCreates initialState [⟨"A", "", 5⟩, ⟨"B", "", 5⟩]).notes.map Note.id)
      = [5, 5] ∧
    ¬ ((runCreates initialState
        [⟨"A", "", 5⟩, ⟨"B", "", 5⟩]).notes.map Note.id).Nodup := by
  decide

/-- C4 (amended): a sequence of creates with non-empty trimmed titles
whose save instants are pairwise distinct yields, from the empty
collection, one note per create with pairwise-distinct ids. -/
theorem runCreates_ids_nodup (ops : List CreateOp)
    (ht : ∀ op ∈ ops, jsTrim op.title ≠ "")
    (htimes : (ops.map CreateOp.time).Nodup) :
    ((runCreates initialState ops).notes.map Note.id).Nodup ∧
    (runCreates initialState ops).notes.length = ops.length := by
  have h := runCreates_ids ops initialState ht
  constructor
  · rw [h]
    simpa [initialState] using List.nodup_reverse.mpr htimes
  · have hlen := congrArg List.length h
    simpa [initialState] using hlen

/-- Witness for C4 (amended): two creates at the distinct instants 1 and
2 give two notes with distinct ids. -/
theorem runCreates_ids_nodup_witness :
    ((runCreates initialState
        [⟨"A", "a", 1⟩, ⟨"B", "b", 2⟩]).notes.map Note.id).Nodup ∧
    (runCreates initialState [⟨"A", "a", 1⟩, ⟨"B", "b", 2⟩]).notes.length = 2 :=
  runCreates_ids_nodup [⟨"A", "a", 1⟩, ⟨"B", "b", 2⟩] (by decide) (by decide)

/-- Mapping a function over a list relates each element to its image,
positionally. -/
theorem forall2_map_self {α β : Type} (R : α → β → Prop) (f : α → β) :
    ∀ l : List α, (∀ a ∈ l, R a (f a)) → List.Forall₂ R l (l.map f)
  | [], _ => List.Forall₂.nil
  | a :: l, h =>
      List.Forall₂.cons (h a (List.mem_cons_self a l))
        (forall2_map_self R f l fun b hb => h b (List.mem_cons_of_mem a hb))

/-- C5: on a collection satisfying the unique-id invariant and holding
the edited id, a save in update mode with a non-empty trimmed title
keeps the length and order of the collection, keeps every note's id and
`createdAt`, rewrites exactly the matching note's title, content and
`updatedAt` (to the save instant), leaves every other note untouched,
and signals no error. -/
theorem saveNote_update_spec (st : AppState) (tid now : Nat)
    (hc : st.currentNote = some tid)
    (ht : jsTrim st.editorTitle ≠ "")
    (_hmem : tid ∈ st.notes.map Note.id)
    (_hnodup : (st.notes.map Note.id).Nodup) :
    List.Forall₂ (fun old new =>
        new.id = old.id ∧ new.createdAt = old.createdAt ∧
        (old.id = tid →
          new.title = st.editorTitle ∧ new.content = st.editorContent ∧
          new.updatedAt = now) ∧
        (old.id ≠ tid → new = old))
      st.notes (saveNote st now).1.notes ∧
    (saveNote st now).1.notes.length = st.notes.length ∧
    (saveNote st now).2 = none := by
  have hn : (saveNote st now).1.notes = st.notes.map (fun n =>
      if n.id = tid then
        { n with title := st.editorTitle, content := st.editorContent
                 updatedAt := now }
      else n) := by
    simp [saveNote, hc, ht, closeEditor]
  refine ⟨?_, ?_, ?_⟩
  · rw [hn]
    apply forall2_map_self
    intro a _
    by_cases h : a.id = tid
    · simp [h]
    · simp [h]
  · rw [hn]
    simp
  · simp [saveNote, hc, ht]

/-- Witness for C5: updating the open note of id 1 at instant 99 keeps a
two-note collection at length two with no error. -/
theorem saveNote_update_spec_witness :
    (saveNote
      { notes := [⟨1, "Old", "oc", 10, 10⟩, ⟨2, "Keep", "k", 11, 11⟩]
        currentNote := some 1, showEditor := true
        editorTitle := " New ", editorContent := "nc" }
      99).1.notes.length = 2 ∧
    (saveNote
      { notes := [⟨1, "Old", "oc", 10, 10⟩, ⟨2, "Keep", "k", 11, 11⟩]
        currentNote := some 1, showEditor := true
        editorTitle := " New ", editorContent := "nc" }
      99).2 = none :=
  ⟨(saveNote_update_spec
      { notes := [⟨1, "Old", "oc", 10, 10⟩, ⟨2, "Keep", "k", 11, 11⟩]
        currentNote := some 1, showEditor := true
        editorTitle := " New ", editorContent := "nc" }
      1 99 rfl (by decide) (by decide) (by decide)).2.1,
   (saveNote_update_spec
      { notes := [⟨1, "Old", "oc", 10, 10⟩, ⟨2, "Keep", "k", 11, 11⟩]
        currentNote := some 1, showEditor := true
        editorTitle := " New ", editorContent := "nc" }
      1 99 rfl (by decide) (by decide) (by decide)).2.2⟩

/-- Counterexample to C8 as stated: `JSON.parse` runs with no
try/catch, so a present blob that fails to parse makes the load signal
the escaped exception instead of succeeding with the empty collection. -/
theorem loadNotes_parseFailure_counterexample :
    loadNotes (some "oops") (fun _ => none) = LoadResult.parseFailure ∧
    loadNotes (some "oops") (fun _ => none) ≠ LoadResult.loaded [] := by
  decide

/-- C8 (amended): an absent blob — or an empty one, which the truthiness
test also skips — starts the store on the empty collection without
failure; a present non-empty blob that parses loads the parsed
collection; a present non-empty blob that fails to parse makes the load
operation itself fail with the uncaught parse exception (the in-memory
collection having never been assigned). -/
theorem loadNotes_spec (parse : String → Option (List Note)) (s : String)
    (ns : List Note) :
    loadNotes none parse = LoadResult.loaded [] ∧
    loadNotes (some "") parse = LoadResult.loaded [] ∧
    (s ≠ "" → parse s = some ns →
      loadNotes (some s) parse = LoadResult.loaded ns) ∧
    (s ≠ "" → parse s = none →
      loadNotes (some s) parse = LoadResult.parseFailure) := by
  refine ⟨rfl, by simp [loadNotes], ?_, ?_⟩ <;>
    intro h hp <;> simp [loadNotes, h, hp]

/-- Witness for C8 (amended): a parser that succeeds with the empty
array on the blob "[]" loads the empty collection. -/
theorem loadNotes_spec_witness :
    loadNotes (some "[]") (fun _ => some []) = LoadResult.loaded [] :=
  (loadNotes_spec (fun _ => some []) "[]" []).2.2.1 (by decide) rfl

/-- Counterexample to C9 as stated: on `"the cat sat"` the offsets 2 and
5 select `"e c"`, not `"cat"`, so the bold format yields
`"th**e c**at sat"` and not the claimed `"the **cat** sat"`. -/
theorem applyFormat_bold_counterexample :
    applyFormat "bold" 2 5 "the cat sat" = "th**e c**at sat" ∧
    applyFormat "bold" 2 5 "the cat sat" ≠ "the **cat** sat" := by
  decide

/-- C9 (amended): for any in-range selection the bold format wraps
exactly the selected substring in asterisk pairs, leaving the text
before the selection start and after the selection end unchanged; the
selection covering `"cat"` in `"the cat sat"` is offsets 4 to 7, and
there the result is `"the **cat** sat"`. -/
theorem applyFormat_bold_spec (content : String) (start stop : Nat)
    (h1 : start ≤ stop) (h2 : stop ≤ content.toList.length) :
    applyFormat "bold" start stop content =
      String.mk (content.toList.take start) ++ "**" ++
      String.mk ((content.toList.take stop).drop start) ++ "**" ++
      String.mk (content.toList.drop stop) := by
  have hsn : start ≤ content.toList.length := le_trans h1 h2
  have hsn' : min start content.toList.length = start := Nat.min_eq_left hsn
  have h2' : min stop content.toList.length = stop := Nat.min_eq_left h2
  have e1 : jsSubstring content 0 start =
      String.mk (content.toList.take start) := by
    simp only [jsSubstring, Nat.zero_min, Nat.zero_max, hsn', List.drop_zero]
  have e2 : jsSubstring content start stop =
      String.mk ((content.toList.take stop).drop start) := by
    simp only [jsSubstring, hsn', h2', Nat.min_eq_left h1, Nat.max_eq_right h1]
  have hb : applyFormat "bold" start stop content =
      jsSubstring content 0 start ++
        ("**" ++ jsSubstring content start stop ++ "**") ++
        jsSubstringFrom content stop := rfl
  rw [hb, e1, e2]
  apply String.ext
  simp [jsSubstringFrom]

/-- Witness for C9 (amended): bolding the selection 4–7 of
`"the cat sat"` gives `"the **cat** sat"`. -/
theorem applyFormat_bold_spec_witness :
    applyFormat "bold" 4 7 "the cat sat" = "the **cat** sat" :=
  (applyFormat_bold_spec "the cat sat" 4 7 (by decide) (by decide)).trans
    (by decide)

/-- C10: a successful save stores the draft title exactly as typed —
trimming is only the validation test, never applied to the stored value:
in create mode the prepended note's title is the draft title, and in
update mode the matching note's title becomes the draft title. -/
theorem saveNote_title_untrimmed (st : AppState) (now : Nat)
    (ht : jsTrim st.editorTitle ≠ "") :
    (st.currentNote = none →
      ((saveNote st now).1.notes.head?.map Note.title) = some st.editorTitle) ∧
    (∀ tid, st.currentNote = some tid →
      ∀ n ∈ (saveNote st now).1.notes, n.id = tid →
        n.title = st.editorTitle) := by
  constructor
  · intro hc
    simp [saveNote, ht, hc, closeEditor]
  · intro tid hc n hn hid
    have hmap : (saveNote st now).1.notes = st.notes.map (fun m =>
        if m.id = tid then
          { m with title := st.editorTitle, content := st.editorContent
                   updatedAt := now }
        else m) := by
      simp [saveNote, hc, ht, closeEditor]
    rw [hmap] at hn
    obtain ⟨m, hm, rfl⟩ := List.mem_map.mp hn
    by_cases h : m.id = tid
    · simp [h]
    · rw [if_neg h] at hid
      exact absurd hid h

/-- Witness for C10: the title `" My Note "`, non-empty after trimming
but carrying its surrounding spaces, is stored verbatim. -/
theorem saveNote_title_untrimmed_witness :
    ((saveNote
      { notes := [], currentNote := none, showEditor := true
        editorTitle := " My Note ", editorContent := "" }
      3).1.notes.head?.map Note.title) = some " My Note " :=
  (saveNote_title_untrimmed
    { notes := [], currentNote := none, showEditor := true
      editorTitle := " My Note ", editorContent := "" }
    3 (by decide)).1 rfl

end NotesApp
